import Mathlib

/-!
Shallow embedding of the record-serialization engine of
`src/serialize/per_type/dataclass.rs` (orjson dataclass serializers):
`DataclassGenericSerializer`, `DataclassFastSerializer`,
`DataclassFallbackSerializer` and the `ZeroDictSerializer` empty-map path.

Modelling conventions:
- A Python object value is either an opaque scalar (int / str atoms, whose
  own serialization belongs to the external per-value dispatcher) or a
  record (dataclass instance).  A record instance is observed through
  exactly the three features the Rust code reads from it: the optional
  enumerable backing store (the result of `PyObject_GetAttr(ptr, DICT_STR)`,
  `none` when the attribute lookup fails and the code calls `PyErr_Clear`),
  the fixed-layout marker (`pydict_contains!(ob_type, SLOTS_STR)`), and the
  declared-field schema (`__dataclass_fields__`: per descriptor the raw
  attribute name, the descriptor kind tag compared against `FIELD_TYPE`,
  and the value `PyObject_GetAttr(self.ptr, attr)` would return — the
  fallback path assumes that lookup succeeds).
- A store key is a Python object that is either text-typed (with
  `Option String` for the result of decoding it: `none` models a text
  object whose bytes do not decode) or not text-typed.
- `key_as_str.as_bytes()[0]` is a Rust slice index; on the empty string it
  is out of bounds (a checked panic).  We model that read by
  `String.data.head?` (for valid UTF-8, the first byte equals the byte of
  an ASCII char iff the first char is that char) and give the serializers
  a distinct `indexOutOfBounds` outcome for the panic.
- The serde map sink is modelled as an accumulated document tree; the
  `ZeroDictSerializer` short-circuit gets its own `Doc.emptyMap`
  constructor, distinct from a mapping built through the open / emit /
  close protocol (`Doc.map`).
- `Py_DECREF(dict)` is observable: the generic dispatcher returns the
  number of times it released the acquired store handle alongside its
  result.
-/

/-- The serialization error kinds raised by this module
(`SerializeError::RecursionLimit`, `KeyMustBeStr`, `InvalidStr`). -/
inductive SerializeError where
  | RecursionLimit
  | KeyMustBeStr
  | InvalidStr
deriving DecidableEq, Repr

/-- The kind tag of a dataclass field descriptor: its `field.type` object is
either pointer-equal to the `FIELD_TYPE` marker (an ordinary stored field)
or some other object (a derived / computed pseudo-field). -/
inductive FieldKind where
  | fieldType
  | other
deriving DecidableEq, Repr

/-- A key object of the backing store (`__dict__`): either text-typed
(with the result of decoding it; `none` when `PyStr::to_str` fails) or a
non-text object. -/
inductive StoreKey where
  | text : Option String → StoreKey
  | nonText : StoreKey
deriving DecidableEq, Repr

mutual

/-- A Python value as seen by this module: an opaque atom handled by the
external per-value serializer, or a record (dataclass instance). -/
inductive PyValue where
  | int : Int → PyValue
  | str : String → PyValue
  | record : StoreOpt → Bool → FieldList → PyValue

/-- The result of `PyObject_GetAttr(ptr, DICT_STR)`: `noStore` when the
lookup fails (null, `PyErr_Clear` follows), otherwise the acquired
enumerable backing store. -/
inductive StoreOpt where
  | noStore : StoreOpt
  | store : StoreList → StoreOpt

/-- The entries of a backing store in iteration order (`pydict_next`). -/
inductive StoreList where
  | nil : StoreList
  | cons : StoreKey → PyValue → StoreList → StoreList

/-- The declared-field schema (`__dataclass_fields__`) in declared order:
per descriptor the raw attribute name (`none` when its bytes do not
decode), the descriptor kind tag, and the current attribute value of the
instance (the fallback path assumes `PyObject_GetAttr(self.ptr, attr)`
succeeds). -/
inductive FieldList where
  | nil : FieldList
  | cons : Option String → FieldKind → PyValue → FieldList → FieldList

end

/-- The serialized document produced by the sink.  `emptyMap` is the
`ZeroDictSerializer` output, emitted without opening the mapping
protocol; `map` is a mapping built through `serialize_map` /
`serialize_key` / `serialize_value` / `end`. -/
inductive Doc where
  | int : Int → Doc
  | str : String → Doc
  | emptyMap : Doc
  | map : List (String × Doc) → Doc

/-- Outcome of one serializer invocation: a document, a propagated
`SerializeError`, or the Rust panic from the out-of-bounds slice index
`key_as_str.as_bytes()[0]` on an empty key. -/
inductive SResult where
  | ok : Doc → SResult
  | fail : SerializeError → SResult
  | indexOutOfBounds : SResult

/-- Intermediate outcome of the per-entry emission loop of a mapping:
the emitted key/value pairs in emission order, or the error that aborted
the emission. -/
inductive MapResult where
  | entries : List (String × Doc) → MapResult
  | fail : SerializeError → MapResult
  | indexOutOfBounds : MapResult

/-- Modelled from the spec: `RecordState` / `SerializerState`
(`src/serialize/state.rs` is not part of the provided sources).  Per the
spec it carries the current recursion depth and the configured recursion
limit; the fallback conversion hook is threaded separately, as the
`default` field of the serializer structs. -/
structure SerializerState where
  depth : Nat
  limit : Nat
deriving DecidableEq, Repr

/-- Modelled from the spec: `SerializerState::copy_for_recursive_call`
returns a new state with depth+1 and everything else unchanged (each
recursive call operates on its own incremented copy). -/
def SerializerState.copy_for_recursive_call (st : SerializerState) : SerializerState :=
  { st with depth := st.depth + 1 }

/-- Modelled from the spec: `SerializerState::recursion_limit` is true
when the recursion depth has reached the configured limit. -/
def SerializerState.recursion_limit (st : SerializerState) : Bool :=
  st.limit ≤ st.depth

/-- The byte read `key_as_str.as_bytes()[0]` of the underscore filter,
as a checked access: `none` means the index is out of bounds (the Rust
code panics there).  For valid UTF-8 the first byte is `b'_'` iff the
first char is `'_'`. -/
def firstChar (s : String) : Option Char :=
  s.data.head?

/-- Length of a store (`Py_SIZE` on the dict). -/
def StoreList.length : StoreList → Nat
  | .nil => 0
  | .cons _ _ rest => 1 + rest.length

/-- Length of the declared-field schema (`Py_SIZE` on
`__dataclass_fields__`; it counts every descriptor, derived ones
included). -/
def FieldList.length : FieldList → Nat
  | .nil => 0
  | .cons _ _ _ rest => 1 + rest.length

mutual

/-- `PyObjectSerializer` restricted to what this module needs: atoms are
emitted by the external per-value serializer (opaque here), records are
dispatched to `DataclassGenericSerializer::serialize` (dropping its
release count, which concerns only that invocation's own handle). -/
def serializeValue : PyValue → SerializerState → Option Nat → SResult
  | .int n, _, _ => .ok (.int n)
  | .str s, _, _ => .ok (.str s)
  | .record storeOpt slots fields, st, d => (serializeGeneric storeOpt slots fields st d).1
termination_by v _ _ => 2 * sizeOf v

/-- `DataclassGenericSerializer::serialize`: recursion-limit check first,
then acquire the backing store; on failure clear the error and fall back;
on success either honor `__slots__` (fallback, then release) or run the
fast path (then release).  The second component counts the
`Py_DECREF(dict)` releases of the acquired store handle performed by this
invocation. -/
def serializeGeneric : StoreOpt → Bool → FieldList → SerializerState → Option Nat → SResult × Nat
  | storeOpt, slots, fields, st, d =>
    if st.recursion_limit then (.fail .RecursionLimit, 0)
    else
      match storeOpt with
      | .noStore => (serializeFallback fields st.copy_for_recursive_call d, 0)
      | .store entries =>
        if slots then
          (serializeFallback fields st.copy_for_recursive_call d, 1)
        else
          (serializeFast entries st.copy_for_recursive_call d, 1)
termination_by storeOpt _ fields _ _ => 2 * (sizeOf storeOpt + sizeOf fields)

/-- `DataclassFastSerializer::serialize` (its state already advanced by
`copy_for_recursive_call` in `new`): zero-size stores short-circuit to
`ZeroDictSerializer`; otherwise the mapping protocol is opened and the
entries emitted in iteration order. -/
def serializeFast : StoreList → SerializerState → Option Nat → SResult
  | entries, st, d =>
    if entries.length = 0 then .ok .emptyMap
    else
      match serializeFastEntries entries st d with
      | .entries es => .ok (.map es)
      | .fail e => .fail e
      | .indexOutOfBounds => .indexOutOfBounds
termination_by entries _ _ => 2 * sizeOf entries + 1

/-- The per-entry loop of the fast path: key must be text-typed
(`KeyMustBeStr`), must decode (`InvalidStr`), then the underscore filter
reads byte 0 and skips private keys; surviving entries have their value
serialized recursively and are emitted key-then-value.  Errors abort the
emission immediately. -/
def serializeFastEntries : StoreList → SerializerState → Option Nat → MapResult
  | .nil, _, _ => .entries []
  | .cons k v rest, st, d =>
    match k with
    | .nonText => .fail .KeyMustBeStr
    | .text none => .fail .InvalidStr
    | .text (some s) =>
      match firstChar s with
      | none => .indexOutOfBounds
      | some c =>
        if c = '_' then serializeFastEntries rest st d
        else
          match serializeValue v st d with
          | .ok doc =>
            match serializeFastEntries rest st d with
            | .entries es => .entries ((s, doc) :: es)
            | .fail e => .fail e
            | .indexOutOfBounds => .indexOutOfBounds
          | .fail e => .fail e
          | .indexOutOfBounds => .indexOutOfBounds
termination_by entries _ _ => 2 * sizeOf entries

/-- `DataclassFallbackSerializer::serialize` (state already advanced in
`new`): a zero-size `__dataclass_fields__` short-circuits to
`ZeroDictSerializer`; otherwise the mapping protocol is opened and the
descriptors walked in declared order. -/
def serializeFallback : FieldList → SerializerState → Option Nat → SResult
  | fields, st, d =>
    if fields.length = 0 then .ok .emptyMap
    else
      match serializeFallbackEntries fields st d with
      | .entries es => .ok (.map es)
      | .fail e => .fail e
      | .indexOutOfBounds => .indexOutOfBounds
termination_by fields _ _ => 2 * sizeOf fields + 1

/-- The per-descriptor loop of the fallback path: descriptors whose kind
tag is not `FIELD_TYPE` are skipped before the name is decoded or the
value looked up; then the name must decode (`InvalidStr`), the underscore
filter reads byte 0, and surviving fields are emitted key-then-value. -/
def serializeFallbackEntries : FieldList → SerializerState → Option Nat → MapResult
  | .nil, _, _ => .entries []
  | .cons attr kind value rest, st, d =>
    if kind ≠ .fieldType then serializeFallbackEntries rest st d
    else
      match attr with
      | none => .fail .InvalidStr
      | some s =>
        match firstChar s with
        | none => .indexOutOfBounds
        | some c =>
          if c = '_' then serializeFallbackEntries rest st d
          else
            match serializeValue value st d with
            | .ok doc =>
              match serializeFallbackEntries rest st d with
              | .entries es => .entries ((s, doc) :: es)
              | .fail e => .fail e
              | .indexOutOfBounds => .indexOutOfBounds
            | .fail e => .fail e
            | .indexOutOfBounds => .indexOutOfBounds
termination_by fields _ _ => 2 * sizeOf fields

end

/-- Concatenation of store segments (used to state that skipping one
entry leaves the surrounding entries untouched). -/
def StoreList.append : StoreList → StoreList → StoreList
  | .nil, ys => ys
  | .cons k v rest, ys => .cons k v (rest.append ys)

/-- Concatenation of schema segments. -/
def FieldList.append : FieldList → FieldList → FieldList
  | .nil, ys => ys
  | .cons a k v rest, ys => .cons a k v (rest.append ys)

/-- A store and a declared-field schema that expose the same logical
field set: entry by entry, the store key is text decoding to exactly the
declared name, the descriptor kind is the ordinary `FIELD_TYPE` marker,
and the store value is the attribute value, in the same order. -/
inductive MatchingSchema : StoreList → FieldList → Prop where
  | nil : MatchingSchema .nil .nil
  | cons (s : String) (v : PyValue) (es : StoreList) (fs : FieldList) :
      MatchingSchema es fs →
      MatchingSchema (.cons (.text (some s)) v es) (.cons (some s) .fieldType v fs)

/-- The keys the fast path emits, in store iteration order: the names of
the text-and-decodable keys whose first byte is not an underscore (the
remaining arms are unreachable when the emission loop succeeds). -/
def storeKeys : StoreList → List String
  | .nil => []
  | .cons (.text (some s)) _ rest =>
    if firstChar s = some '_' then storeKeys rest else s :: storeKeys rest
  | .cons _ _ rest => storeKeys rest

/-- The keys the fallback path emits, in declared-field order: the names
of the ordinary decodable fields whose first byte is not an underscore
(the remaining arms are unreachable when the emission loop succeeds,
except the non-`FIELD_TYPE` skip). -/
def fieldKeys : FieldList → List String
  | .nil => []
  | .cons (some s) .fieldType _ rest =>
    if firstChar s = some '_' then fieldKeys rest else s :: fieldKeys rest
  | .cons _ _ _ rest => fieldKeys rest

mutual

/-- Nesting depth of a value: how many record levels it contains
(an atom is 0, a record is one more than the deepest value reachable
through its store or its schema). -/
def vDepth : PyValue → Nat
  | .int _ => 0
  | .str _ => 0
  | .record storeOpt _ fields => 1 + max (soDepth storeOpt) (fDepth fields)
termination_by v => sizeOf v

/-- Deepest value reachable through an optional store. -/
def soDepth : StoreOpt → Nat
  | .noStore => 0
  | .store entries => sDepth entries
termination_by s => sizeOf s

/-- Deepest value reachable through store entries. -/
def sDepth : StoreList → Nat
  | .nil => 0
  | .cons _ v rest => max (vDepth v) (sDepth rest)
termination_by es => sizeOf es

/-- Deepest value reachable through the declared-field schema. -/
def fDepth : FieldList → Nat
  | .nil => 0
  | .cons _ _ v rest => max (vDepth v) (fDepth rest)
termination_by fs => sizeOf fs

end

/-- Nesting depth of a record observed through its store and schema:
the maximal number of record levels strictly below it. -/
def recordDepth (storeOpt : StoreOpt) (fields : FieldList) : Nat :=
  max (soDepth storeOpt) (fDepth fields)

/-- Whether the store acquisition succeeded. -/
def StoreOpt.isStore : StoreOpt → Bool
  | .noStore => false
  | .store _ => true

section StepLemmas

theorem recursion_limit_false (st : SerializerState) (h : st.depth < st.limit) :
    st.recursion_limit = false := by
  simp [SerializerState.recursion_limit]
  omega

theorem serializeGeneric_limit (storeOpt : StoreOpt) (slots : Bool) (fields : FieldList)
    (st : SerializerState) (d : Option Nat) (h : st.recursion_limit = true) :
    serializeGeneric storeOpt slots fields st d = (.fail .RecursionLimit, 0) := by
  cases storeOpt <;> simp [serializeGeneric, h]

theorem serializeGeneric_noStore (slots : Bool) (fields : FieldList)
    (st : SerializerState) (d : Option Nat) (h : st.recursion_limit = false) :
    serializeGeneric .noStore slots fields st d
      = (serializeFallback fields st.copy_for_recursive_call d, 0) := by
  simp [serializeGeneric, h]

theorem serializeGeneric_slots (entries : StoreList) (fields : FieldList)
    (st : SerializerState) (d : Option Nat) (h : st.recursion_limit = false) :
    serializeGeneric (.store entries) true fields st d
      = (serializeFallback fields st.copy_for_recursive_call d, 1) := by
  simp [serializeGeneric, h]

theorem serializeGeneric_fast (entries : StoreList) (fields : FieldList)
    (st : SerializerState) (d : Option Nat) (h : st.recursion_limit = false) :
    serializeGeneric (.store entries) false fields st d
      = (serializeFast entries st.copy_for_recursive_call d, 1) := by
  simp [serializeGeneric, h]

theorem serializeFast_nil (st : SerializerState) (d : Option Nat) :
    serializeFast .nil st d = .ok .emptyMap := by
  simp [serializeFast, StoreList.length]

theorem serializeFast_cons (k : StoreKey) (v : PyValue) (rest : StoreList)
    (st : SerializerState) (d : Option Nat) :
    serializeFast (.cons k v rest) st d
      = match serializeFastEntries (.cons k v rest) st d with
        | .entries es => .ok (.map es)
        | .fail e => .fail e
        | .indexOutOfBounds => .indexOutOfBounds := by
  simp [serializeFast, StoreList.length]

theorem serializeFallback_nil (st : SerializerState) (d : Option Nat) :
    serializeFallback .nil st d = .ok .emptyMap := by
  simp [serializeFallback, FieldList.length]

theorem serializeFallback_cons (attr : Option String) (kind : FieldKind) (v : PyValue)
    (rest : FieldList) (st : SerializerState) (d : Option Nat) :
    serializeFallback (.cons attr kind v rest) st d
      = match serializeFallbackEntries (.cons attr kind v rest) st d with
        | .entries es => .ok (.map es)
        | .fail e => .fail e
        | .indexOutOfBounds => .indexOutOfBounds := by
  simp [serializeFallback, FieldList.length]

theorem serializeFastEntries_nil (st : SerializerState) (d : Option Nat) :
    serializeFastEntries .nil st d = .entries [] := by
  simp [serializeFastEntries]

theorem serializeFastEntries_nonText (v : PyValue) (rest : StoreList)
    (st : SerializerState) (d : Option Nat) :
    serializeFastEntries (.cons .nonText v rest) st d = .fail .KeyMustBeStr := by
  simp [serializeFastEntries]

theorem serializeFastEntries_undecodable (v : PyValue) (rest : StoreList)
    (st : SerializerState) (d : Option Nat) :
    serializeFastEntries (.cons (.text none) v rest) st d = .fail .InvalidStr := by
  simp [serializeFastEntries]

theorem serializeFastEntries_emptyKey (v : PyValue) (rest : StoreList)
    (st : SerializerState) (d : Option Nat) (s : String) (h : firstChar s = none) :
    serializeFastEntries (.cons (.text (some s)) v rest) st d = .indexOutOfBounds := by
  simp [serializeFastEntries, h]

theorem serializeFastEntries_underscore (v : PyValue) (rest : StoreList)
    (st : SerializerState) (d : Option Nat) (s : String) (h : firstChar s = some '_') :
    serializeFastEntries (.cons (.text (some s)) v rest) st d
      = serializeFastEntries rest st d := by
  simp [serializeFastEntries, h]

theorem serializeFastEntries_emit (v : PyValue) (rest : StoreList)
    (st : SerializerState) (d : Option Nat) (s : String) (c : Char)
    (h : firstChar s = some c) (hc : c ≠ '_') :
    serializeFastEntries (.cons (.text (some s)) v rest) st d
      = match serializeValue v st d with
        | .ok doc =>
          match serializeFastEntries rest st d with
          | .entries es => .entries ((s, doc) :: es)
          | .fail e => .fail e
          | .indexOutOfBounds => .indexOutOfBounds
        | .fail e => .fail e
        | .indexOutOfBounds => .indexOutOfBounds := by
  simp [serializeFastEntries, h, hc]

theorem serializeFallbackEntries_nil (st : SerializerState) (d : Option Nat) :
    serializeFallbackEntries .nil st d = .entries [] := by
  simp [serializeFallbackEntries]

theorem serializeFallbackEntries_derived (attr : Option String) (kind : FieldKind)
    (v : PyValue) (rest : FieldList) (st : SerializerState) (d : Option Nat)
    (h : kind ≠ .fieldType) :
    serializeFallbackEntries (.cons attr kind v rest) st d
      = serializeFallbackEntries rest st d := by
  rw [serializeFallbackEntries.eq_def]
  simp [h]

theorem serializeFallbackEntries_undecodable (v : PyValue) (rest : FieldList)
    (st : SerializerState) (d : Option Nat) :
    serializeFallbackEntries (.cons none .fieldType v rest) st d = .fail .InvalidStr := by
  simp [serializeFallbackEntries]

theorem serializeFallbackEntries_emptyName (v : PyValue) (rest : FieldList)
    (st : SerializerState) (d : Option Nat) (s : String) (h : firstChar s = none) :
    serializeFallbackEntries (.cons (some s) .fieldType v rest) st d = .indexOutOfBounds := by
  simp [serializeFallbackEntries, h]

theorem serializeFallbackEntries_underscore (v : PyValue) (rest : FieldList)
    (st : SerializerState) (d : Option Nat) (s : String) (h : firstChar s = some '_') :
    serializeFallbackEntries (.cons (some s) .fieldType v rest) st d
      = serializeFallbackEntries rest st d := by
  simp [serializeFallbackEntries, h]

theorem serializeFallbackEntries_emit (v : PyValue) (rest : FieldList)
    (st : SerializerState) (d : Option Nat) (s : String) (c : Char)
    (h : firstChar s = some c) (hc : c ≠ '_') :
    serializeFallbackEntries (.cons (some s) .fieldType v rest) st d
      = match serializeValue v st d with
        | .ok doc =>
          match serializeFallbackEntries rest st d with
          | .entries es => .entries ((s, doc) :: es)
          | .fail e => .fail e
          | .indexOutOfBounds => .indexOutOfBounds
        | .fail e => .fail e
        | .indexOutOfBounds => .indexOutOfBounds := by
  simp [serializeFallbackEntries, h, hc]

end StepLemmas

theorem serializeFast_ne (entries : StoreList) (st : SerializerState) (d : Option Nat)
    (e : SerializeError) (hE : serializeFastEntries entries st d ≠ .fail e) :
    serializeFast entries st d ≠ .fail e := by
  match entries with
  | .nil => rw [serializeFast_nil]; simp
  | .cons k v rest =>
    rw [serializeFast_cons]
    rcases hres : serializeFastEntries (.cons k v rest) st d with es | e2 | _
    · simp
    · simp only []
      intro hc
      injection hc with he
      subst he
      exact hE hres
    · simp

theorem serializeFallback_ne (fields : FieldList) (st : SerializerState) (d : Option Nat)
    (e : SerializeError) (hE : serializeFallbackEntries fields st d ≠ .fail e) :
    serializeFallback fields st d ≠ .fail e := by
  match fields with
  | .nil => rw [serializeFallback_nil]; simp
  | .cons a k v rest =>
    rw [serializeFallback_cons]
    rcases hres : serializeFallbackEntries (.cons a k v rest) st d with es | e2 | _
    · simp
    · simp only []
      intro hc
      injection hc with he
      subst he
      exact hE hres
    · simp

mutual

theorem noRL_val (v : PyValue) (st : SerializerState) (d : Option Nat)
    (h : st.depth + vDepth v ≤ st.limit) :
    serializeValue v st d ≠ .fail .RecursionLimit := by
  match v with
  | .int n => simp [serializeValue]
  | .str s => simp [serializeValue]
  | .record storeOpt slots fields =>
    have hd : st.depth + recordDepth storeOpt fields < st.limit := by
      simp only [vDepth] at h
      simp only [recordDepth]
      omega
    have hgen := noRL_gen storeOpt slots fields st d hd
    simpa [serializeValue] using hgen
termination_by 2 * sizeOf v

theorem noRL_gen (storeOpt : StoreOpt) (slots : Bool) (fields : FieldList)
    (st : SerializerState) (d : Option Nat)
    (h : st.depth + recordDepth storeOpt fields < st.limit) :
    (serializeGeneric storeOpt slots fields st d).1 ≠ .fail .RecursionLimit := by
  simp only [recordDepth] at h
  have hrl : st.recursion_limit = false := recursion_limit_false st (by omega)
  have hfall : st.copy_for_recursive_call.depth + fDepth fields
      ≤ st.copy_for_recursive_call.limit := by
    have h1 := Nat.le_max_right (soDepth storeOpt) (fDepth fields)
    simp only [SerializerState.copy_for_recursive_call]
    omega
  match storeOpt with
  | .noStore =>
    rw [serializeGeneric_noStore slots fields st d hrl]
    exact serializeFallback_ne fields _ d _ (noRL_fallE fields _ d hfall)
  | .store entries =>
    have hfast : st.copy_for_recursive_call.depth + sDepth entries
        ≤ st.copy_for_recursive_call.limit := by
      simp only [soDepth] at h
      simp only [SerializerState.copy_for_recursive_call]
      omega
    match slots with
    | true =>
      rw [serializeGeneric_slots entries fields st d hrl]
      exact serializeFallback_ne fields _ d _ (noRL_fallE fields _ d hfall)
    | false =>
      rw [serializeGeneric_fast entries fields st d hrl]
      exact serializeFast_ne entries _ d _ (noRL_fastE entries _ d hfast)
termination_by 2 * (sizeOf storeOpt + sizeOf fields)

theorem noRL_fastE (entries : StoreList) (st : SerializerState) (d : Option Nat)
    (h : st.depth + sDepth entries ≤ st.limit) :
    serializeFastEntries entries st d ≠ .fail .RecursionLimit := by
  match entries with
  | .nil => rw [serializeFastEntries_nil]; simp
  | .cons k v rest =>
    simp only [sDepth] at h
    have hv : st.depth + vDepth v ≤ st.limit := by
      have h1 := Nat.le_max_left (vDepth v) (sDepth rest)
      omega
    have hrest : st.depth + sDepth rest ≤ st.limit := by
      have h1 := Nat.le_max_right (vDepth v) (sDepth rest)
      omega
    match k with
    | .nonText => rw [serializeFastEntries_nonText]; simp
    | .text none => rw [serializeFastEntries_undecodable]; simp
    | .text (some s) =>
      rcases hfc : firstChar s with _ | c
      · rw [serializeFastEntries_emptyKey v rest st d s hfc]; simp
      · by_cases hc : c = '_'
        · subst hc
          rw [serializeFastEntries_underscore v rest st d s hfc]
          exact noRL_fastE rest st d hrest
        · rw [serializeFastEntries_emit v rest st d s c hfc hc]
          have hV := noRL_val v st d hv
          have hR := noRL_fastE rest st d hrest
          rcases hsv : serializeValue v st d with doc | e | _
          · rcases hsr : serializeFastEntries rest st d with es | e2 | _
            · simp
            · simp only []
              intro hc2
              injection hc2 with he
              subst he
              exact hR hsr
            · simp
          · simp only []
            intro hc2
            injection hc2 with he
            subst he
            exact hV hsv
          · simp
termination_by 2 * sizeOf entries

theorem noRL_fallE (fields : FieldList) (st : SerializerState) (d : Option Nat)
    (h : st.depth + fDepth fields ≤ st.limit) :
    serializeFallbackEntries fields st d ≠ .fail .RecursionLimit := by
  match fields with
  | .nil => rw [serializeFallbackEntries_nil]; simp
  | .cons attr kind v rest =>
    simp only [fDepth] at h
    have hv : st.depth + vDepth v ≤ st.limit := by
      have h1 := Nat.le_max_left (vDepth v) (fDepth rest)
      omega
    have hrest : st.depth + fDepth rest ≤ st.limit := by
      have h1 := Nat.le_max_right (vDepth v) (fDepth rest)
      omega
    match kind with
    | .other =>
      rw [serializeFallbackEntries_derived attr .other v rest st d (by simp)]
      exact noRL_fallE rest st d hrest
    | .fieldType =>
      match attr with
      | none => rw [serializeFallbackEntries_undecodable]; simp
      | some s =>
        rcases hfc : firstChar s with _ | c
        · rw [serializeFallbackEntries_emptyName v rest st d s hfc]; simp
        · by_cases hc : c = '_'
          · subst hc
            rw [serializeFallbackEntries_underscore v rest st d s hfc]
            exact noRL_fallE rest st d hrest
          · rw [serializeFallbackEntries_emit v rest st d s c hfc hc]
            have hV := noRL_val v st d hv
            have hR := noRL_fallE rest st d hrest
            rcases hsv : serializeValue v st d with doc | e | _
            · rcases hsr : serializeFallbackEntries rest st d with es | e2 | _
              · simp
              · simp only []
                intro hc2
                injection hc2 with he
                subst he
                exact hR hsr
              · simp
            · simp only []
              intro hc2
              injection hc2 with he
              subst he
              exact hV hsv
            · simp
termination_by 2 * sizeOf fields

end

/-- Inserting an entry the fast loop skips (for every continuation)
anywhere in a store leaves the loop's result unchanged. -/
theorem fastEntries_insert_skipped (pre post : StoreList) (k : StoreKey) (v : PyValue)
    (st : SerializerState) (d : Option Nat)
    (hskip : ∀ rest : StoreList,
      serializeFastEntries (.cons k v rest) st d = serializeFastEntries rest st d) :
    serializeFastEntries (pre.append (.cons k v post)) st d
      = serializeFastEntries (pre.append post) st d := by
  match pre with
  | .nil =>
    simp only [StoreList.append]
    exact hskip post
  | .cons k2 v2 pre2 =>
    simp only [StoreList.append]
    have ih := fastEntries_insert_skipped pre2 post k v st d hskip
    match k2 with
    | .nonText => rw [serializeFastEntries_nonText, serializeFastEntries_nonText]
    | .text none => rw [serializeFastEntries_undecodable, serializeFastEntries_undecodable]
    | .text (some t) =>
      rcases hfc : firstChar t with _ | c
      · rw [serializeFastEntries_emptyKey _ _ _ _ _ hfc,
            serializeFastEntries_emptyKey _ _ _ _ _ hfc]
      · by_cases hc : c = '_'
        · subst hc
          rw [serializeFastEntries_underscore _ _ _ _ _ hfc,
              serializeFastEntries_underscore _ _ _ _ _ hfc]
          exact ih
        · rw [serializeFastEntries_emit _ _ _ _ _ _ hfc hc,
              serializeFastEntries_emit _ _ _ _ _ _ hfc hc, ih]
termination_by sizeOf pre

/-- Inserting a descriptor the fallback loop skips (for every
continuation) anywhere in a schema leaves the loop's result unchanged. -/
theorem fallbackEntries_insert_skipped (pre post : FieldList) (attr : Option String)
    (kind : FieldKind) (v : PyValue) (st : SerializerState) (d : Option Nat)
    (hskip : ∀ rest : FieldList,
      serializeFallbackEntries (.cons attr kind v rest) st d
        = serializeFallbackEntries rest st d) :
    serializeFallbackEntries (pre.append (.cons attr kind v post)) st d
      = serializeFallbackEntries (pre.append post) st d := by
  match pre with
  | .nil =>
    simp only [FieldList.append]
    exact hskip post
  | .cons a2 k2 v2 pre2 =>
    simp only [FieldList.append]
    have ih := fallbackEntries_insert_skipped pre2 post attr kind v st d hskip
    match k2 with
    | .other =>
      rw [serializeFallbackEntries_derived _ _ _ _ _ _ (by simp),
          serializeFallbackEntries_derived _ _ _ _ _ _ (by simp)]
      exact ih
    | .fieldType =>
      match a2 with
      | none =>
        rw [serializeFallbackEntries_undecodable, serializeFallbackEntries_undecodable]
      | some t =>
        rcases hfc : firstChar t with _ | c
        · rw [serializeFallbackEntries_emptyName _ _ _ _ _ hfc,
              serializeFallbackEntries_emptyName _ _ _ _ _ hfc]
        · by_cases hc : c = '_'
          · subst hc
            rw [serializeFallbackEntries_underscore _ _ _ _ _ hfc,
                serializeFallbackEntries_underscore _ _ _ _ _ hfc]
            exact ih
          · rw [serializeFallbackEntries_emit _ _ _ _ _ _ hfc hc,
                serializeFallbackEntries_emit _ _ _ _ _ _ hfc hc, ih]
termination_by sizeOf pre

/-- On a store and schema exposing the same logical field set, the two
emission loops agree step by step. -/
theorem matching_entries_eq (es : StoreList) (fs : FieldList) (st : SerializerState)
    (d : Option Nat) (h : MatchingSchema es fs) :
    serializeFastEntries es st d = serializeFallbackEntries fs st d := by
  induction h with
  | nil => rw [serializeFastEntries_nil, serializeFallbackEntries_nil]
  | cons s v es2 fs2 hm ih =>
    rcases hfc : firstChar s with _ | c
    · rw [serializeFastEntries_emptyKey _ _ _ _ _ hfc,
          serializeFallbackEntries_emptyName _ _ _ _ _ hfc]
    · by_cases hc : c = '_'
      · subst hc
        rw [serializeFastEntries_underscore _ _ _ _ _ hfc,
            serializeFallbackEntries_underscore _ _ _ _ _ hfc]
        exact ih
      · rw [serializeFastEntries_emit _ _ _ _ _ _ hfc hc,
            serializeFallbackEntries_emit _ _ _ _ _ _ hfc hc, ih]

/-- On success the fast path emits exactly the non-private decodable
keys, in store iteration order. -/
theorem fastEntries_keys (entries : StoreList) (st : SerializerState) (d : Option Nat)
    (es : List (String × Doc)) (h : serializeFastEntries entries st d = .entries es) :
    es.map Prod.fst = storeKeys entries := by
  match entries with
  | .nil =>
    rw [serializeFastEntries_nil] at h
    injection h with h2
    subst h2
    simp [storeKeys]
  | .cons k v rest =>
    match k with
    | .nonText =>
      rw [serializeFastEntries_nonText] at h
      exact absurd h (by simp)
    | .text none =>
      rw [serializeFastEntries_undecodable] at h
      exact absurd h (by simp)
    | .text (some s) =>
      rcases hfc : firstChar s with _ | c
      · rw [serializeFastEntries_emptyKey _ _ _ _ _ hfc] at h
        exact absurd h (by simp)
      · by_cases hc : c = '_'
        · subst hc
          rw [serializeFastEntries_underscore _ _ _ _ _ hfc] at h
          rw [show storeKeys (.cons (.text (some s)) v rest) = storeKeys rest by
            simp [storeKeys, hfc]]
          exact fastEntries_keys rest st d es h
        · rw [serializeFastEntries_emit _ _ _ _ _ _ hfc hc] at h
          rcases hsv : serializeValue v st d with doc | e | _
          · rw [hsv] at h
            rcases hsr : serializeFastEntries rest st d with es2 | e2 | _
            · rw [hsr] at h
              simp only [] at h
              injection h with h2
              subst h2
              rw [show storeKeys (.cons (.text (some s)) v rest)
                  = s :: storeKeys rest by simp [storeKeys, hfc, hc]]
              simp only [List.map_cons]
              rw [fastEntries_keys rest st d es2 hsr]
            · rw [hsr] at h
              exact absurd h (by simp)
            · rw [hsr] at h
              exact absurd h (by simp)
          · rw [hsv] at h
            exact absurd h (by simp)
          · rw [hsv] at h
            exact absurd h (by simp)
termination_by sizeOf entries

/-- On success the fallback path emits exactly the non-private ordinary
field names, in declared order. -/
theorem fallbackEntries_keys (fl : FieldList) (st : SerializerState) (d : Option Nat)
    (es : List (String × Doc)) (h : serializeFallbackEntries fl st d = .entries es) :
    es.map Prod.fst = fieldKeys fl := by
  match fl with
  | .nil =>
    rw [serializeFallbackEntries_nil] at h
    injection h with h2
    subst h2
    simp [fieldKeys]
  | .cons attr kind v rest =>
    match kind with
    | .other =>
      rw [serializeFallbackEntries_derived _ _ _ _ _ _ (by simp)] at h
      rw [show fieldKeys (.cons attr .other v rest) = fieldKeys rest by
        cases attr <;> simp [fieldKeys]]
      exact fallbackEntries_keys rest st d es h
    | .fieldType =>
      match attr with
      | none =>
        rw [serializeFallbackEntries_undecodable] at h
        exact absurd h (by simp)
      | some s =>
        rcases hfc : firstChar s with _ | c
        · rw [serializeFallbackEntries_emptyName _ _ _ _ _ hfc] at h
          exact absurd h (by simp)
        · by_cases hc : c = '_'
          · subst hc
            rw [serializeFallbackEntries_underscore _ _ _ _ _ hfc] at h
            rw [show fieldKeys (.cons (some s) .fieldType v rest) = fieldKeys rest by
              simp [fieldKeys, hfc]]
            exact fallbackEntries_keys rest st d es h
          · rw [serializeFallbackEntries_emit _ _ _ _ _ _ hfc hc] at h
            rcases hsv : serializeValue v st d with doc | e | _
            · rw [hsv] at h
              rcases hsr : serializeFallbackEntries rest st d with es2 | e2 | _
              · rw [hsr] at h
                simp only [] at h
                injection h with h2
                subst h2
                rw [show fieldKeys (.cons (some s) .fieldType v rest)
                    = s :: fieldKeys rest by simp [fieldKeys, hfc, hc]]
                simp only [List.map_cons]
                rw [fallbackEntries_keys rest st d es2 hsr]
              · rw [hsr] at h
                exact absurd h (by simp)
              · rw [hsr] at h
                exact absurd h (by simp)
            · rw [hsv] at h
              exact absurd h (by simp)
            · rw [hsv] at h
              exact absurd h (by simp)
termination_by sizeOf fl

/-- Claim C1: once the RecordState's recursion depth has reached the
configured limit, the dispatcher fails with `RecursionLimit` for every
record, with no store handle released (the check precedes the
acquisition); and for every record graph nested to depth strictly below
the remaining budget, serialization never fails with `RecursionLimit`. -/
theorem claimC1 (storeOpt : StoreOpt) (slots : Bool) (fields : FieldList)
    (st : SerializerState) (d : Option Nat) :
    (st.recursion_limit = true →
      serializeGeneric storeOpt slots fields st d = (.fail .RecursionLimit, 0)) ∧
    (st.depth + recordDepth storeOpt fields < st.limit →
      (serializeGeneric storeOpt slots fields st d).1 ≠ .fail .RecursionLimit) :=
  ⟨serializeGeneric_limit storeOpt slots fields st d,
   noRL_gen storeOpt slots fields st d⟩

/-- Witness for C1 at concrete inputs: a state at the limit fails, and a
depth-1 record graph under limit 255 does not raise `RecursionLimit`. -/
theorem claimC1_witness :
    serializeGeneric .noStore false .nil ⟨255, 255⟩ none = (.fail .RecursionLimit, 0) ∧
    (serializeGeneric .noStore false
        (.cons (some "a") .fieldType (.record .noStore false .nil) .nil)
        ⟨0, 255⟩ none).1 ≠ .fail .RecursionLimit :=
  ⟨(claimC1 .noStore false .nil ⟨255, 255⟩ none).1 (by decide),
   (claimC1 .noStore false
      (.cons (some "a") .fieldType (.record .noStore false .nil) .nil) ⟨0, 255⟩ none).2
     (by simp [recordDepth, soDepth, fDepth, vDepth])⟩

/-- Claim C2: a store entry (fast path) or an ordinary declared field
(fallback path) whose decoded key/name begins with an underscore is
omitted from the emission — no key, no error — for every value, and the
surrounding entries are unaffected. -/
theorem claimC2 (pre post : StoreList) (fpre fpost : FieldList) (s t : String)
    (v w : PyValue) (st : SerializerState) (d : Option Nat)
    (hs : firstChar s = some '_') (ht : firstChar t = some '_') :
    serializeFastEntries (pre.append (.cons (.text (some s)) v post)) st d
      = serializeFastEntries (pre.append post) st d ∧
    serializeFallbackEntries (fpre.append (.cons (some t) .fieldType w fpost)) st d
      = serializeFallbackEntries (fpre.append fpost) st d :=
  ⟨fastEntries_insert_skipped pre post (.text (some s)) v st d
      (fun rest => serializeFastEntries_underscore v rest st d s hs),
   fallbackEntries_insert_skipped fpre fpost (some t) .fieldType w st d
      (fun rest => serializeFallbackEntries_underscore w rest st d t ht)⟩

/-- Witness for C2 at concrete inputs: the `_b` entry is dropped on both
paths. -/
theorem claimC2_witness :
    serializeFastEntries
        (StoreList.append .nil (.cons (.text (some "_b")) (.int 2) .nil)) ⟨1, 255⟩ none
      = serializeFastEntries (StoreList.append .nil .nil) ⟨1, 255⟩ none ∧
    serializeFallbackEntries
        (FieldList.append .nil (.cons (some "_b") .fieldType (.int 2) .nil)) ⟨1, 255⟩ none
      = serializeFallbackEntries (FieldList.append .nil .nil) ⟨1, 255⟩ none :=
  claimC2 .nil .nil .nil .nil "_b" "_b" (.int 2) (.int 2) ⟨1, 255⟩ none
    (by decide) (by decide)

/-- Claim C3: below the recursion limit the dispatcher routes as follows:
failed store acquisition delegates to the fallback serializer (releasing
nothing), an acquired store on a fixed-layout (`__slots__`) type is
released and the fallback serializer used, and otherwise the fast-path
serializer runs on the acquired store. -/
theorem claimC3 (entries : StoreList) (slots : Bool) (fields : FieldList)
    (st : SerializerState) (d : Option Nat) (h : st.recursion_limit = false) :
    serializeGeneric .noStore slots fields st d
        = (serializeFallback fields st.copy_for_recursive_call d, 0) ∧
    serializeGeneric (.store entries) true fields st d
        = (serializeFallback fields st.copy_for_recursive_call d, 1) ∧
    serializeGeneric (.store entries) false fields st d
        = (serializeFast entries st.copy_for_recursive_call d, 1) :=
  ⟨serializeGeneric_noStore slots fields st d h,
   serializeGeneric_slots entries fields st d h,
   serializeGeneric_fast entries fields st d h⟩

/-- Witness for C3 at concrete inputs. -/
theorem claimC3_witness :
    serializeGeneric .noStore false .nil ⟨0, 255⟩ none
        = (serializeFallback .nil (SerializerState.copy_for_recursive_call ⟨0, 255⟩) none, 0) ∧
    serializeGeneric (.store .nil) true .nil ⟨0, 255⟩ none
        = (serializeFallback .nil (SerializerState.copy_for_recursive_call ⟨0, 255⟩) none, 1) ∧
    serializeGeneric (.store .nil) false .nil ⟨0, 255⟩ none
        = (serializeFast .nil (SerializerState.copy_for_recursive_call ⟨0, 255⟩) none, 1) :=
  claimC3 .nil false .nil ⟨0, 255⟩ none (by decide)

/-- Claim C4: in the fast path a non-text-typed store key fails with
`KeyMustBeStr` and a text-typed but undecodable key fails with
`InvalidStr`, in both cases before the underscore filter and regardless
of the value or the remaining entries, and the error is the result of
the whole mapping's emission. -/
theorem claimC4 (v : PyValue) (rest : StoreList) (st : SerializerState) (d : Option Nat) :
    serializeFastEntries (.cons .nonText v rest) st d = .fail .KeyMustBeStr ∧
    serializeFastEntries (.cons (.text none) v rest) st d = .fail .InvalidStr ∧
    serializeFast (.cons .nonText v rest) st d = .fail .KeyMustBeStr ∧
    serializeFast (.cons (.text none) v rest) st d = .fail .InvalidStr := by
  refine ⟨serializeFastEntries_nonText v rest st d,
          serializeFastEntries_undecodable v rest st d, ?_, ?_⟩
  · rw [serializeFast_cons, serializeFastEntries_nonText]
  · rw [serializeFast_cons, serializeFastEntries_undecodable]

/-- Claim C5: on a record type exposing both a fully populated
enumerable store and a matching declared-field schema (same names, all
ordinary, same values, same order) with no fixed-layout restriction, the
fast-path and fallback serializers produce identical output. -/
theorem claimC5 (es : StoreList) (fs : FieldList) (st : SerializerState) (d : Option Nat)
    (h : MatchingSchema es fs) :
    serializeFast es st d = serializeFallback fs st d := by
  cases h with
  | nil => rw [serializeFast_nil, serializeFallback_nil]
  | cons s v es2 fs2 hm =>
    rw [serializeFast_cons, serializeFallback_cons,
        matching_entries_eq _ _ st d (MatchingSchema.cons s v es2 fs2 hm)]

/-- Witness for C5 at a concrete one-field record. -/
theorem claimC5_witness :
    serializeFast (.cons (.text (some "a")) (.int 1) .nil) ⟨1, 255⟩ none
      = serializeFallback (.cons (some "a") .fieldType (.int 1) .nil) ⟨1, 255⟩ none :=
  claimC5 _ _ ⟨1, 255⟩ none (MatchingSchema.cons "a" (.int 1) .nil .nil .nil)

/-- Claim C6: a field descriptor whose kind tag is not the ordinary
`FIELD_TYPE` marker is skipped before its name is decoded or its value
looked up, for every name (even an undecodable one) and value; and the
concrete fixed-layout record with ordinary field name="x" and derived
field computed_total=10 serializes to the mapping with the single entry
name="x". -/
theorem claimC6 (pre post : FieldList) (attr : Option String) (kind : FieldKind)
    (v : PyValue) (st : SerializerState) (d : Option Nat) (h : kind ≠ .fieldType) :
    serializeFallbackEntries (pre.append (.cons attr kind v post)) st d
      = serializeFallbackEntries (pre.append post) st d ∧
    (serializeGeneric .noStore true
        (.cons (some "name") .fieldType (.str "x")
          (.cons (some "computed_total") .other (.int 10) .nil)) ⟨0, 255⟩ none).1
      = .ok (.map [("name", .str "x")]) := by
  constructor
  · exact fallbackEntries_insert_skipped pre post attr kind v st d
      (fun rest => serializeFallbackEntries_derived attr kind v rest st d h)
  · simp [serializeGeneric, serializeFallback, serializeFallbackEntries, serializeValue,
      SerializerState.recursion_limit, SerializerState.copy_for_recursive_call,
      FieldList.length, firstChar]

/-- Witness for C6: a derived descriptor with undecodable name and
arbitrary value is elided, and the concrete scenario holds. -/
theorem claimC6_witness :
    serializeFallbackEntries
        (FieldList.append .nil (.cons none .other (.int 0) .nil)) ⟨1, 255⟩ none
      = serializeFallbackEntries (FieldList.append .nil .nil) ⟨1, 255⟩ none ∧
    (serializeGeneric .noStore true
        (.cons (some "name") .fieldType (.str "x")
          (.cons (some "computed_total") .other (.int 10) .nil)) ⟨0, 255⟩ none).1
      = .ok (.map [("name", .str "x")]) :=
  claimC6 .nil .nil none .other (.int 0) ⟨1, 255⟩ none (by decide)

/-- Claim C7: a zero-size backing store (fast path) and a zero-entry
field-descriptor collection (fallback path) both serialize to the
`ZeroDictSerializer` empty mapping, emitted without opening the general
mapping-output protocol. -/
theorem claimC7 (entries : StoreList) (fields : FieldList) (st st2 : SerializerState)
    (d d2 : Option Nat) (h1 : entries.length = 0) (h2 : fields.length = 0) :
    serializeFast entries st d = .ok .emptyMap ∧
    serializeFallback fields st2 d2 = .ok .emptyMap := by
  constructor
  · match entries with
    | .nil => exact serializeFast_nil st d
    | .cons k v rest => simp [StoreList.length] at h1
  · match fields with
    | .nil => exact serializeFallback_nil st2 d2
    | .cons a k v rest => simp [FieldList.length] at h2

/-- Witness for C7 at the empty store and empty schema. -/
theorem claimC7_witness :
    serializeFast .nil ⟨1, 255⟩ none = .ok .emptyMap ∧
    serializeFallback .nil ⟨1, 255⟩ none = .ok .emptyMap :=
  claimC7 .nil .nil ⟨1, 255⟩ ⟨1, 255⟩ none none rfl rfl

/-- Claim C8: the dispatcher releases the acquired store handle exactly
once on every exit path on which acquisition succeeded (fast path,
fixed-layout fallback, success or failure alike), and never when
acquisition failed or the recursion-limit exit fired first. -/
theorem claimC8 (storeOpt : StoreOpt) (slots : Bool) (fields : FieldList)
    (st : SerializerState) (d : Option Nat) :
    (serializeGeneric storeOpt slots fields st d).2
      = if st.recursion_limit = false ∧ storeOpt.isStore = true then 1 else 0 := by
  by_cases hrl : st.recursion_limit = true
  · rw [serializeGeneric_limit storeOpt slots fields st d hrl]
    simp [hrl]
  · have hrl2 : st.recursion_limit = false := by
      cases hb : st.recursion_limit
      · rfl
      · exact absurd hb hrl
    match storeOpt with
    | .noStore =>
      rw [serializeGeneric_noStore slots fields st d hrl2]
      simp [hrl2, StoreOpt.isStore]
    | .store entries =>
      match slots with
      | true =>
        rw [serializeGeneric_slots entries fields st d hrl2]
        simp [hrl2, StoreOpt.isStore]
      | false =>
        rw [serializeGeneric_fast entries fields st d hrl2]
        simp [hrl2, StoreOpt.isStore]

/-- Claim C9: serialization is deterministic — the same record, state
and hook give the same result — and on success the fast path emits keys
in store iteration order and the fallback path in declared-field order
(the order-preserving filters `storeKeys` and `fieldKeys`). -/
theorem claimC9 (storeOpt : StoreOpt) (slots : Bool) (fields : FieldList)
    (st : SerializerState) (d : Option Nat) (entries : StoreList) (fl : FieldList)
    (st2 : SerializerState) (d2 : Option Nat) (es es2 : List (String × Doc)) :
    serializeGeneric storeOpt slots fields st d
        = serializeGeneric storeOpt slots fields st d ∧
    (serializeFastEntries entries st2 d2 = .entries es →
      es.map Prod.fst = storeKeys entries) ∧
    (serializeFallbackEntries fl st2 d2 = .entries es2 →
      es2.map Prod.fst = fieldKeys fl) :=
  ⟨rfl, fastEntries_keys entries st2 d2 es, fallbackEntries_keys fl st2 d2 es2⟩

/-- Witness for C9: on a concrete store the emitted key list is the
iteration-order filter of the store keys. -/
theorem claimC9_witness :
    ([("a", Doc.int 1)]).map Prod.fst
      = storeKeys (.cons (.text (some "a")) (.int 1)
          (.cons (.text (some "_b")) (.int 2) .nil)) :=
  (claimC9 .noStore false .nil ⟨0, 255⟩ none
      (.cons (.text (some "a")) (.int 1) (.cons (.text (some "_b")) (.int 2) .nil)) .nil
      ⟨1, 255⟩ none [("a", .int 1)] []).2.1
    (by simp [serializeFastEntries, serializeValue, firstChar])

/-- C10 counterexample: a key (or field name) that decodes to the EMPTY
string passes the text-type and decoding checks, and the underscore
filter's read of byte index 0 is then out of bounds — both serializers
hit the slice-index panic, so the claim that the read is always in
bounds is false. -/
theorem claimC10_counterexample :
    serializeFastEntries (.cons (.text (some "")) (.int 0) .nil) ⟨1, 255⟩ none
        = .indexOutOfBounds ∧
    serializeFallbackEntries (.cons (some "") .fieldType (.int 0) .nil) ⟨1, 255⟩ none
        = .indexOutOfBounds ∧
    serializeFast (.cons (.text (some "")) (.int 0) .nil) ⟨1, 255⟩ none
        = .indexOutOfBounds := by
  have h : firstChar "" = none := by decide
  refine ⟨serializeFastEntries_emptyKey _ _ _ _ _ h,
          serializeFallbackEntries_emptyName _ _ _ _ _ h, ?_⟩
  rw [serializeFast_cons, serializeFastEntries_emptyKey _ _ _ _ _ h]

/-- Claim C10 (amended): for every key or field name that decodes to a
NONEMPTY string the underscore filter's byte-0 read is in bounds — any
out-of-bounds outcome of that entry comes from deeper in the value or
from the remaining entries, never from this read; a key decoding to the
empty string instead reaches the read out of bounds
(`claimC10_counterexample`). -/
theorem claimC10 (s : String) (v : PyValue) (rest : StoreList) (fl : FieldList)
    (st : SerializerState) (d : Option Nat) (hs : s ≠ "") :
    (∃ c, firstChar s = some c) ∧
    (serializeFastEntries (.cons (.text (some s)) v rest) st d = .indexOutOfBounds →
      serializeValue v st d = .indexOutOfBounds ∨
        serializeFastEntries rest st d = .indexOutOfBounds) ∧
    (serializeFallbackEntries (.cons (some s) .fieldType v fl) st d = .indexOutOfBounds →
      serializeValue v st d = .indexOutOfBounds ∨
        serializeFallbackEntries fl st d = .indexOutOfBounds) := by
  have hd : s.data ≠ [] := fun hnil => hs (String.ext hnil)
  obtain ⟨c, cs, hcs⟩ : ∃ c cs, s.data = c :: cs := by
    cases hsd : s.data with
    | nil => exact absurd hsd hd
    | cons c cs => exact ⟨c, cs, rfl⟩
  have hfc : firstChar s = some c := by simp [firstChar, hcs]
  refine ⟨⟨c, hfc⟩, ?_, ?_⟩
  · by_cases hc : c = '_'
    · subst hc
      rw [serializeFastEntries_underscore v rest st d s hfc]
      exact fun h => Or.inr h
    · rw [serializeFastEntries_emit v rest st d s c hfc hc]
      rcases hsv : serializeValue v st d with doc | e | _
      · rcases hsr : serializeFastEntries rest st d with es | e2 | _
        · simp
        · simp
        · exact fun _ => Or.inr rfl
      · simp
      · exact fun _ => Or.inl rfl
  · by_cases hc : c = '_'
    · subst hc
      rw [serializeFallbackEntries_underscore v fl st d s hfc]
      exact fun h => Or.inr h
    · rw [serializeFallbackEntries_emit v fl st d s c hfc hc]
      rcases hsv : serializeValue v st d with doc | e | _
      · rcases hsr : serializeFallbackEntries fl st d with es | e2 | _
        · simp
        · simp
        · exact fun _ => Or.inr rfl
      · simp
      · exact fun _ => Or.inl rfl

/-- Witness for the amended C10 at a concrete nonempty key. -/
theorem claimC10_witness :
    (∃ c, firstChar "a" = some c) ∧
    (serializeFastEntries (.cons (.text (some "a")) (.int 0) .nil) ⟨1, 255⟩ none
        = .indexOutOfBounds →
      serializeValue (.int 0) ⟨1, 255⟩ none = .indexOutOfBounds ∨
        serializeFastEntries .nil ⟨1, 255⟩ none = .indexOutOfBounds) ∧
    (serializeFallbackEntries (.cons (some "a") .fieldType (.int 0) .nil) ⟨1, 255⟩ none
        = .indexOutOfBounds →
      serializeValue (.int 0) ⟨1, 255⟩ none = .indexOutOfBounds ∨
        serializeFallbackEntries .nil ⟨1, 255⟩ none = .indexOutOfBounds) :=
  claimC10 "a" (.int 0) .nil .nil ⟨1, 255⟩ none (by decide)
